import Mathlib

/-
  Verification of the appointment-dashboard core of the
  marcacaoDeConsultasMedicas repository.

  The repository's source provides the AppointmentCard style components
  (StatusBadge, StatusText, ActionButton) and navigation types; the
  status helpers (getStatusColor / labelFor) and the dashboard
  view-model hook (useAdminDashboard) are documented in the spec and in
  the repository's README but their implementation files are not part
  of the provided sources, so those parts are modelled from the spec.
-/

namespace MarcacaoConsultas

/-- The closed status enumeration of an appointment. -/
inductive AppointmentStatus
  | pending
  | confirmed
  | cancelled
  | completed
deriving DecidableEq, Repr

/-- An appointment record: identity is the id; status is mutable; all
other fields immutable after creation. -/
structure Appointment where
  id : Nat
  doctorName : String
  specialty : String
  dateTime : Nat
  status : AppointmentStatus
deriving DecidableEq, Repr

/-- Aggregate statistics derived from the appointment collection:
the total count and one bucket per status. -/
structure Stats where
  total : Nat
  pending : Nat
  confirmed : Nat
  cancelled : Nat
  completed : Nat
deriving DecidableEq, Repr

/-- The bucket of a Stats value for a given status. -/
def Stats.byStatus (st : Stats) : AppointmentStatus → Nat
  | .pending => st.pending
  | .confirmed => st.confirmed
  | .cancelled => st.cancelled
  | .completed => st.completed

/-- Number of appointments in a list carrying a given status. -/
def countStatus (s : AppointmentStatus) : List Appointment → Nat
  | [] => 0
  | a :: rest => (if a.status = s then 1 else 0) + countStatus s rest

/-- Modelled from the spec: the Stats derivation of the dashboard hook
(useAdminDashboard, not present under the provided sources) — total is
the count of all appointments and byStatus maps each status to the
count of appointments with that status. -/
def computeStats (l : List Appointment) : Stats :=
  { total := l.length
  , pending := countStatus .pending l
  , confirmed := countStatus .confirmed l
  , cancelled := countStatus .cancelled l
  , completed := countStatus .completed l }

/-- The dashboard error taxonomy from the spec. -/
inductive DashboardError
  | NotFound
  | InvalidStatus
deriving DecidableEq, Repr

/-- The fetch failure of the external appointment-data-provider. -/
inductive FetchError
  | FetchFailed
deriving DecidableEq, Repr

/-- The coarse view-model states. -/
inductive CoarseState
  | Loading
  | Ready
  | Error
deriving DecidableEq, Repr

/-- The UI tab selector owned by the view-model. -/
inductive Tab
  | all
  | pending
  | confirmed
  | cancelled
  | completed
deriving DecidableEq, Repr

/-- Modelled from the spec: the dashboard view-model state
(useAdminDashboard hook, not present under the provided sources) —
the appointment collection, the coarse state and the active tab.
Stats are derived, never stored independently. -/
structure ViewModel where
  appointments : List Appointment
  coarse : CoarseState
  activeTab : Tab
deriving DecidableEq, Repr

/-- The derived Stats of a view-model. -/
def ViewModel.stats (vm : ViewModel) : Stats :=
  computeStats vm.appointments

/-- The status of the entry with the given id, if present. -/
def findStatus (id : Nat) : List Appointment → Option AppointmentStatus
  | [] => none
  | a :: rest => if a.id = id then some a.status else findStatus id rest

/-- Update the status field of the entry with the given id (ids are
unique identifiers, so at most one entry matches). -/
def updateFirst (id : Nat) (ns : AppointmentStatus) :
    List Appointment → List Appointment
  | [] => []
  | a :: rest =>
      if a.id = id then { a with status := ns } :: rest
      else a :: updateFirst id ns rest

/-- Modelled from the spec: `updateStatus(appointmentId, newStatus)` of
the dashboard hook (not present under the provided sources) — requires
the id to reference an existing entry; if absent, fails with NotFound
and leaves state unchanged; on success mutates the matching entry's
status field, recomputes Stats and returns them. -/
def updateStatus (id : Nat) (ns : AppointmentStatus) (vm : ViewModel) :
    ViewModel × Except DashboardError Stats :=
  match findStatus id vm.appointments with
  | none => (vm, Except.error DashboardError.NotFound)
  | some _ =>
      let appts := updateFirst id ns vm.appointments
      ({ vm with appointments := appts }, Except.ok (computeStats appts))

/-- Modelled from the spec: `initialize()` of the dashboard hook (not
present under the provided sources) — on a successful fetch stores the
returned collection and moves to Ready; on failure stores an empty
collection and moves to Error. -/
def initDashboard (result : Except FetchError (List Appointment))
    (vm : ViewModel) : ViewModel :=
  match result with
  | Except.ok appts => { vm with appointments := appts, coarse := CoarseState.Ready }
  | Except.error _ => { vm with appointments := [], coarse := CoarseState.Error }

/-- Modelled from the spec: `setActiveTab(tab)` — pure state
assignment of the selected tab. -/
def setActiveTab (t : Tab) (vm : ViewModel) : ViewModel :=
  { vm with activeTab := t }

/-- One inbound operation of the view-model. -/
inductive Op
  | fetch (result : Except FetchError (List Appointment))
  | update (id : Nat) (ns : AppointmentStatus)
  | setTab (t : Tab)

/-- Apply one operation to the view-model state. -/
def stepOp (vm : ViewModel) : Op → ViewModel
  | Op.fetch r => initDashboard r vm
  | Op.update id ns => (updateStatus id ns vm).1
  | Op.setTab t => setActiveTab t vm

/-- Run a sequence of operations from a state. -/
def runOps (vm : ViewModel) : List Op → ViewModel
  | [] => vm
  | op :: ops => runOps (stepOp vm op) ops

/-- The four status values in their string form, as they appear in the
TypeScript union type. -/
def statusStrings : List String :=
  ["pending", "confirmed", "cancelled", "completed"]

/-- The documented default color returned for a status value outside
the closed enumeration. -/
def defaultStatusColor : String := "#6C757D"

/-- Modelled from the spec: `getStatusColor` (colorFor) of
utils/statusHelpers.ts, which is imported by the AppointmentCard styles
but not present under the provided sources — a pure total mapping from
a status value to a display color, falling back to the documented
default color for any value outside the closed enumeration. -/
def getStatusColor (status : String) : String :=
  if status = "pending" then "#FFA500"
  else if status = "confirmed" then "#28A745"
  else if status = "cancelled" then "#DC3545"
  else if status = "completed" then "#17A2B8"
  else defaultStatusColor

/-- Modelled from the spec: `labelFor` of the status helpers (not
present under the provided sources) — a pure total mapping from a
status value to a display label, with the same fallback policy. -/
def labelFor (status : String) : String :=
  if status = "pending" then "Pendente"
  else if status = "confirmed" then "Confirmada"
  else if status = "cancelled" then "Cancelada"
  else if status = "completed" then "Concluída"
  else "Desconhecido"

/-- Embedding of the StatusBadge styled component of the AppointmentCard
styles: its background-color is the status color with the two
characters "20" appended (a translucent variant). -/
def statusBadgeBackgroundColor (status : String) : String :=
  getStatusColor status ++ "20"

/-- Embedding of the StatusText styled component of the AppointmentCard
styles: its text color is exactly the status color. -/
def statusTextColor (status : String) : String :=
  getStatusColor status

/-- The variant prop of the ActionButton styled component. -/
inductive Variant
  | confirm
  | cancel
deriving DecidableEq, Repr

/-- The two theme colors the ActionButton reads; the theme module is
not part of the provided sources, so it is kept as a parameter. -/
structure ThemeColors where
  success : String
  error : String
deriving DecidableEq, Repr

/-- Embedding of the ActionButton styled component of the
AppointmentCard styles: background-color is theme.colors.success when
the variant is confirm, theme.colors.error otherwise. -/
def actionButtonBackgroundColor (th : ThemeColors) (v : Variant) : String :=
  if v = Variant.confirm then th.success else th.error

/-- A sample appointment with id 1 and status pending. -/
def apptA : Appointment :=
  { id := 1, doctorName := "Dr. A", specialty := "Cardio", dateTime := 10
  , status := AppointmentStatus.pending }

/-- A sample appointment with id 2 and status confirmed. -/
def apptB : Appointment :=
  { id := 2, doctorName := "Dr. B", specialty := "Derma", dateTime := 20
  , status := AppointmentStatus.confirmed }

/-- The view-model state before any fetch. -/
def initialVM : ViewModel :=
  { appointments := [], coarse := CoarseState.Loading, activeTab := Tab.all }

/-- The view-model after a successful fetch of the two sample
appointments. -/
def exampleVM : ViewModel :=
  initDashboard (Except.ok [apptA, apptB]) initialVM

/-- A sample theme with distinct success and error colors. -/
def exampleTheme : ThemeColors :=
  { success := "#28A745", error := "#DC3545" }

/-- updateFirst preserves the length of the collection. -/
theorem length_updateFirst (id : Nat) (ns : AppointmentStatus) :
    ∀ l : List Appointment, (updateFirst id ns l).length = l.length := by
  intro l
  induction l with
  | nil => rfl
  | cons a rest ih =>
      by_cases h : a.id = id <;> simp [updateFirst, h, ih]

/-- The byStatus bucket of computed stats is the status count of the
collection. -/
theorem byStatus_computeStats (l : List Appointment) (s : AppointmentStatus) :
    (computeStats l).byStatus s = countStatus s l := by
  cases s <;> rfl

/-- The status count is the length of the filtered collection. -/
theorem countStatus_eq_filter_length (s : AppointmentStatus) :
    ∀ l : List Appointment,
      countStatus s l = (l.filter (fun a => decide (a.status = s))).length := by
  intro l
  induction l with
  | nil => rfl
  | cons a rest ih =>
      by_cases h : a.status = s
      · simp [countStatus, List.filter, h, ih]
        omega
      · simp [countStatus, List.filter, h, ih]

/-- Moving the matching entry to the new status shifts exactly one unit
from the old bucket to the new bucket, stated additively to stay in Nat. -/
theorem countStatus_updateFirst (id : Nat) (ns old : AppointmentStatus) :
    ∀ l : List Appointment, findStatus id l = some old →
      ∀ s, countStatus s (updateFirst id ns l) + (if old = s then 1 else 0)
        = countStatus s l + (if ns = s then 1 else 0) := by
  intro l
  induction l with
  | nil => intro h; exact absurd h (by simp [findStatus])
  | cons a rest ih =>
      intro h s
      by_cases hid : a.id = id
      · have hold : old = a.status := by
          have := h
          simp [findStatus, hid] at this
          exact this.symm
        subst hold
        simp only [updateFirst, hid, if_pos, countStatus]
        by_cases h1 : a.status = s <;> by_cases h2 : ns = s <;>
          simp [h1, h2] <;> omega
      · have htail : findStatus id rest = some old := by
          have := h
          simpa [findStatus, hid] using this
        simp only [updateFirst, hid, if_neg, countStatus, not_false_iff]
        have := ih htail s
        omega

/-- On a missing id, updateFirst leaves the collection unchanged. -/
theorem updateFirst_of_findStatus_none (id : Nat) (ns : AppointmentStatus) :
    ∀ l : List Appointment, findStatus id l = none → updateFirst id ns l = l := by
  intro l
  induction l with
  | nil => intro _; rfl
  | cons a rest ih =>
      intro h
      by_cases hid : a.id = id
      · simp [findStatus, hid] at h
      · have htail : findStatus id rest = none := by
          simpa [findStatus, hid] using h
        simp [updateFirst, hid, ih htail]

/-- The field-by-field frame relation between an appointment before and
after an updateStatus call with the given id and new status. -/
def frameRel (id : Nat) (ns : AppointmentStatus) (a b : Appointment) : Prop :=
  b.id = a.id ∧ b.doctorName = a.doctorName ∧ b.specialty = a.specialty ∧
  b.dateTime = a.dateTime ∧ (a.id ≠ id → b.status = a.status) ∧
  (a.id = id → b.status = ns ∨ b.status = a.status)

instance (id : Nat) (ns : AppointmentStatus) (a b : Appointment) :
    Decidable (frameRel id ns a b) := by
  unfold frameRel; infer_instance

/-- The frame relation is reflexive. -/
theorem frameRel_refl (id : Nat) (ns : AppointmentStatus) (a : Appointment) :
    frameRel id ns a a := by
  refine ⟨rfl, rfl, rfl, rfl, fun _ => rfl, fun _ => Or.inr rfl⟩

/-- Every collection is frame-related to itself. -/
theorem forall₂_frameRel_self (id : Nat) (ns : AppointmentStatus) :
    ∀ l : List Appointment, List.Forall₂ (frameRel id ns) l l := by
  intro l
  induction l with
  | nil => exact List.Forall₂.nil
  | cons a rest ih => exact List.Forall₂.cons (frameRel_refl id ns a) ih

/-- updateFirst relates the old and new collections entry by entry:
all fields of every entry are preserved except the status of the entry
whose id matches. -/
theorem forall₂_frameRel_updateFirst (id : Nat) (ns : AppointmentStatus) :
    ∀ l : List Appointment, List.Forall₂ (frameRel id ns) l (updateFirst id ns l) := by
  intro l
  induction l with
  | nil => exact List.Forall₂.nil
  | cons a rest ih =>
      by_cases hid : a.id = id
      · have hup : updateFirst id ns (a :: rest)
            = { a with status := ns } :: rest := by
          simp [updateFirst, hid]
        rw [hup]
        refine List.Forall₂.cons ?_ (forall₂_frameRel_self id ns rest)
        exact ⟨rfl, rfl, rfl, rfl, fun hc => absurd hid hc, fun _ => Or.inl rfl⟩
      · simp only [updateFirst, hid, if_neg, not_false_iff]
        exact List.Forall₂.cons (frameRel_refl id ns a) ih

/-- updateStatus never changes the coarse state. -/
theorem coarse_updateStatus (id : Nat) (ns : AppointmentStatus) (vm : ViewModel) :
    ((updateStatus id ns vm).1).coarse = vm.coarse := by
  unfold updateStatus
  cases findStatus id vm.appointments <;> rfl

/-- setActiveTab never changes the coarse state. -/
theorem coarse_setActiveTab (t : Tab) (vm : ViewModel) :
    (setActiveTab t vm).coarse = vm.coarse := rfl

/-- No single operation can bring the view-model to Loading: a fetch
result moves it to Ready or Error, and the other operations preserve
the coarse state. -/
theorem coarse_stepOp_ne_loading (vm : ViewModel) (op : Op)
    (h : vm.coarse ≠ CoarseState.Loading) :
    (stepOp vm op).coarse ≠ CoarseState.Loading := by
  cases op with
  | fetch r => cases r <;> simp [stepOp, initDashboard]
  | update id ns => simpa [stepOp, coarse_updateStatus] using h
  | setTab t => simpa [stepOp, coarse_setActiveTab] using h

/-- Once the view-model has left Loading, no operation sequence brings
it back. -/
theorem coarse_runOps_ne_loading (vm : ViewModel) (ops : List Op)
    (h : vm.coarse ≠ CoarseState.Loading) :
    (runOps vm ops).coarse ≠ CoarseState.Loading := by
  induction ops generalizing vm with
  | nil => exact h
  | cons op ops ih =>
      exact ih (stepOp vm op) (coarse_stepOp_ne_loading vm op h)

/-- Claim C1: when updateStatus succeeds, the returned recomputed Stats
differ from the previous Stats by exactly one appointment moved from
its old status bucket to the new status bucket, and the total count is
unchanged. -/
theorem updateStatus_moves_one_bucket (vm : ViewModel) (id : Nat)
    (ns : AppointmentStatus) (vm' : ViewModel) (st : Stats)
    (h : updateStatus id ns vm = (vm', Except.ok st)) :
    ∃ old, findStatus id vm.appointments = some old ∧
      st.total = vm.stats.total ∧
      ∀ s, st.byStatus s + (if old = s then 1 else 0)
        = vm.stats.byStatus s + (if ns = s then 1 else 0) := by
  unfold updateStatus at h
  cases hf : findStatus id vm.appointments with
  | none => rw [hf] at h; exact absurd h (by simp)
  | some old =>
      rw [hf] at h
      have hst : st = computeStats (updateFirst id ns vm.appointments) := by
        have := congrArg Prod.snd h
        simpa using this.symm
      refine ⟨old, rfl, ?_, ?_⟩
      · rw [hst]
        simp [computeStats, ViewModel.stats, length_updateFirst]
      · intro s
        rw [hst, byStatus_computeStats, ViewModel.stats, byStatus_computeStats]
        exact countStatus_updateFirst id ns old vm.appointments hf s

/-- Concrete instance of the bucket-move property: updating appointment
1 to confirmed on the two-appointment example. -/
theorem updateStatus_moves_one_bucket_witness :
    ∃ old, findStatus 1 exampleVM.appointments = some old ∧
      (Stats.mk 2 0 2 0 0).total = exampleVM.stats.total ∧
      ∀ s, (Stats.mk 2 0 2 0 0).byStatus s + (if old = s then 1 else 0)
        = exampleVM.stats.byStatus s
          + (if AppointmentStatus.confirmed = s then 1 else 0) :=
  updateStatus_moves_one_bucket exampleVM 1 AppointmentStatus.confirmed
    { exampleVM with
        appointments := updateFirst 1 AppointmentStatus.confirmed exampleVM.appointments }
    (Stats.mk 2 0 2 0 0) rfl

/-- Claim C2: updateStatus on a non-existent id fails with NotFound and
leaves the collection and the derived Stats exactly unchanged. -/
theorem updateStatus_notFound_unchanged (vm : ViewModel) (id : Nat)
    (ns : AppointmentStatus) (h : findStatus id vm.appointments = none) :
    updateStatus id ns vm = (vm, Except.error DashboardError.NotFound) ∧
    ((updateStatus id ns vm).1).appointments = vm.appointments ∧
    ((updateStatus id ns vm).1).stats = vm.stats := by
  have he : updateStatus id ns vm = (vm, Except.error DashboardError.NotFound) := by
    unfold updateStatus; rw [h]
  exact ⟨he, by rw [he], by rw [he]⟩

/-- Concrete instance of the NotFound property: id 99 is absent from
the two-appointment example and nothing changes. -/
theorem updateStatus_notFound_witness :
    findStatus 99 exampleVM.appointments = none ∧
    updateStatus 99 AppointmentStatus.confirmed exampleVM
      = (exampleVM, Except.error DashboardError.NotFound) :=
  ⟨by decide,
   (updateStatus_notFound_unchanged exampleVM 99 AppointmentStatus.confirmed
      (by decide)).1⟩

/-- Claim C3: for every status in the closed enumeration, getStatusColor
and labelFor return a non-empty value, and both helpers are
deterministic: equal inputs give equal outputs. -/
theorem statusHelpers_deterministic_nonempty :
    (∀ s, s ∈ statusStrings → getStatusColor s ≠ "" ∧ labelFor s ≠ "") ∧
    (∀ s t : String, s = t →
      getStatusColor s = getStatusColor t ∧ labelFor s = labelFor t) := by
  constructor
  · intro s hs
    simp only [statusStrings, List.mem_cons, List.not_mem_nil, or_false] at hs
    rcases hs with rfl | rfl | rfl | rfl <;> exact ⟨by decide, by decide⟩
  · intro s t hst
    subst hst
    exact ⟨rfl, rfl⟩

/-- Concrete instance of the helper-totality property at status
pending. -/
theorem statusHelpers_deterministic_nonempty_witness :
    "pending" ∈ statusStrings ∧
    getStatusColor "pending" ≠ "" ∧ labelFor "pending" ≠ "" :=
  ⟨by decide, statusHelpers_deterministic_nonempty.1 "pending" (by decide)⟩

/-- Claim C4: getStatusColor is total over the closed enumeration with a
non-empty color for each member, and returns the documented default
color for every value outside the enumeration. -/
theorem getStatusColor_default_outside :
    (∀ s, s ∈ statusStrings → getStatusColor s ≠ "") ∧
    (∀ s, s ∉ statusStrings → getStatusColor s = defaultStatusColor) := by
  constructor
  · intro s hs
    simp only [statusStrings, List.mem_cons, List.not_mem_nil, or_false] at hs
    rcases hs with rfl | rfl | rfl | rfl <;> decide
  · intro s hs
    simp only [statusStrings, List.mem_cons, List.not_mem_nil, or_false,
      not_or] at hs
    obtain ⟨h1, h2, h3, h4⟩ := hs
    simp [getStatusColor, h1, h2, h3, h4]

/-- Concrete instance of the fallback property: an arbitrary value
outside the enumeration maps to the documented default color. -/
theorem getStatusColor_default_outside_witness :
    "bogus" ∉ statusStrings ∧ getStatusColor "bogus" = defaultStatusColor :=
  ⟨by decide, getStatusColor_default_outside.2 "bogus" (by decide)⟩

/-- Claim C5: initialization with a failing fetch moves the view-model
to the Error state and leaves the appointment collection empty. -/
theorem initFail_error_empty (vm : ViewModel) (e : FetchError) :
    (initDashboard (Except.error e) vm).coarse = CoarseState.Error ∧
    (initDashboard (Except.error e) vm).appointments = [] :=
  ⟨rfl, rfl⟩

/-- Claim C6: after a successful fetch, derived Stats have total equal
to the number of appointments, and each byStatus bucket counts the
appointments with that status; in particular the two-appointment
scenario yields total 2 with one pending and one confirmed. -/
theorem initSuccess_stats :
    (∀ (vm : ViewModel) (appts : List Appointment),
        (initDashboard (Except.ok appts) vm).stats.total = appts.length ∧
        ∀ s, (initDashboard (Except.ok appts) vm).stats.byStatus s
          = (appts.filter (fun a => decide (a.status = s))).length) ∧
    (exampleVM.stats.total = 2 ∧
     exampleVM.stats.byStatus AppointmentStatus.pending = 1 ∧
     exampleVM.stats.byStatus AppointmentStatus.confirmed = 1) := by
  constructor
  · intro vm appts
    refine ⟨rfl, fun s => ?_⟩
    have hb : (initDashboard (Except.ok appts) vm).stats.byStatus s
        = countStatus s appts := byStatus_computeStats appts s
    rw [hb, countStatus_eq_filter_length]
  · exact ⟨rfl, rfl, rfl⟩

/-- Claim C7: the coarse state machine — a successful fetch yields
Ready, a failed fetch yields Error, updateStatus and setActiveTab never
change the coarse state, and once the view-model has left Loading no
operation sequence brings it back to Loading. -/
theorem coarse_state_machine :
    (∀ (vm : ViewModel) (appts : List Appointment),
        (initDashboard (Except.ok appts) vm).coarse = CoarseState.Ready) ∧
    (∀ (vm : ViewModel) (e : FetchError),
        (initDashboard (Except.error e) vm).coarse = CoarseState.Error) ∧
    (∀ (vm : ViewModel) (id : Nat) (ns : AppointmentStatus),
        ((updateStatus id ns vm).1).coarse = vm.coarse) ∧
    (∀ (vm : ViewModel) (t : Tab), (setActiveTab t vm).coarse = vm.coarse) ∧
    (∀ (vm : ViewModel) (ops : List Op), vm.coarse ≠ CoarseState.Loading →
        (runOps vm ops).coarse ≠ CoarseState.Loading) :=
  ⟨fun _ _ => rfl, fun _ _ => rfl,
   fun vm id ns => coarse_updateStatus id ns vm,
   fun _ _ => rfl,
   fun vm ops h => coarse_runOps_ne_loading vm ops h⟩

/-- Concrete instance of the state machine property: the Ready example
state never returns to Loading under a sample operation sequence. -/
theorem coarse_state_machine_witness :
    exampleVM.coarse ≠ CoarseState.Loading ∧
    (runOps exampleVM
        [Op.setTab Tab.pending, Op.update 1 AppointmentStatus.confirmed]).coarse
      ≠ CoarseState.Loading :=
  ⟨by decide,
   coarse_state_machine.2.2.2.2 exampleVM
     [Op.setTab Tab.pending, Op.update 1 AppointmentStatus.confirmed]
     (by decide)⟩

/-- Claim C8: a successful updateStatus changes only the status field of
the matching appointment; every other field of that appointment, and
every field of every other appointment, is unchanged. -/
theorem updateStatus_frame (vm : ViewModel) (id : Nat)
    (ns : AppointmentStatus) (vm' : ViewModel) (st : Stats)
    (h : updateStatus id ns vm = (vm', Except.ok st)) :
    List.Forall₂ (frameRel id ns) vm.appointments vm'.appointments := by
  unfold updateStatus at h
  cases hf : findStatus id vm.appointments with
  | none => rw [hf] at h; exact absurd h (by simp)
  | some old =>
      rw [hf] at h
      have hvm : vm' = { vm with
          appointments := updateFirst id ns vm.appointments } := by
        have := congrArg Prod.fst h
        simpa using this.symm
      rw [hvm]
      exact forall₂_frameRel_updateFirst id ns vm.appointments

/-- Concrete instance of the frame property at the two-appointment
example. -/
theorem updateStatus_frame_witness :
    List.Forall₂ (frameRel 1 AppointmentStatus.confirmed)
      exampleVM.appointments
      ((updateStatus 1 AppointmentStatus.confirmed exampleVM).1).appointments :=
  updateStatus_frame exampleVM 1 AppointmentStatus.confirmed
    (updateStatus 1 AppointmentStatus.confirmed exampleVM).1
    (computeStats (updateFirst 1 AppointmentStatus.confirmed exampleVM.appointments))
    rfl

/-- Claim C9: the StatusBadge background is the status color with "20"
appended and the StatusText color is exactly the status color, so both
derive from the same color for the same status. -/
theorem statusBadge_statusText_same_color (s : String) :
    statusBadgeBackgroundColor s = getStatusColor s ++ "20" ∧
    statusTextColor s = getStatusColor s ∧
    statusBadgeBackgroundColor s = statusTextColor s ++ "20" :=
  ⟨rfl, rfl, rfl⟩

/-- Claim C10: the ActionButton background is the theme success color
exactly for the confirm variant and the theme error color for the
cancel variant, with no third outcome. -/
theorem actionButton_two_colors (th : ThemeColors) (v : Variant) :
    (actionButtonBackgroundColor th v = th.success ∨
     actionButtonBackgroundColor th v = th.error) ∧
    (v = Variant.confirm → actionButtonBackgroundColor th v = th.success) ∧
    (v = Variant.cancel → actionButtonBackgroundColor th v = th.error) ∧
    (th.success ≠ th.error →
      (actionButtonBackgroundColor th v = th.success ↔ v = Variant.confirm)) := by
  cases v with
  | confirm =>
      refine ⟨Or.inl rfl, fun _ => rfl, fun hc => Variant.noConfusion hc,
        fun _ => ⟨fun _ => rfl, fun _ => rfl⟩⟩
  | cancel =>
      have hval : actionButtonBackgroundColor th Variant.cancel = th.error := rfl
      refine ⟨Or.inr hval, fun hc => Variant.noConfusion hc, fun _ => hval,
        fun h => ⟨fun he => ?_, fun hv => Variant.noConfusion hv⟩⟩
      rw [hval] at he
      exact absurd he.symm h

/-- Concrete instance of the ActionButton color property on a theme
with distinct success and error colors. -/
theorem actionButton_two_colors_witness :
    actionButtonBackgroundColor exampleTheme Variant.cancel = exampleTheme.error ∧
    exampleTheme.success ≠ exampleTheme.error ∧
    (actionButtonBackgroundColor exampleTheme Variant.confirm = exampleTheme.success
      ↔ Variant.confirm = Variant.confirm) :=
  ⟨(actionButton_two_colors exampleTheme Variant.cancel).2.2.1 rfl,
   by decide,
   (actionButton_two_colors exampleTheme Variant.confirm).2.2.2 (by decide)⟩

end MarcacaoConsultas
